import Mathlib

/-!
Formal model of the receipt-processor service (src/main.go).

The service stores submitted receipts in an in-memory map and scores them on
request.  The scoring routine (`getPoints`, src/main.go lines 95-153) is
transcribed here as `getPointsScore`; the two HTTP handlers are transcribed as
`processReceipts` and `getPoints` over an explicit store.

Modelling conventions:
* Go strings are modelled as `String` / `List Char`; `len` of an ASCII string
  equals the character count used here, and byte length of a string is
  `utf8Length` of its characters.
* Go `float64` values obtained from `strconv.ParseFloat` are modelled at their
  exact decimal value in `ℚ` (binary rounding, hexadecimal literals,
  underscore separators and the special values Inf/NaN are not modelled;
  none of the verified properties depend on them).
* `math.Mod(x, m) == 0` is modelled by `goModZero` (fmod is exact, so the test
  holds exactly when x is an integer multiple of m), and `math.Ceil` composed
  with the conversion to `int` is modelled by `Int.ceil : ℚ → ℤ`.
* A Go runtime panic (index out of range on a split date, which aborts the
  request) is modelled by `Option.none`.
-/

namespace ReceiptProcessor

/-- Point values for calculating how many points a receipt is worth
(src/main.go lines 19-25). -/
def VALUE_PER_ALPHANUMERIC_CHAR : ℤ := 1

/-- 5 points for every two items (src/main.go line 20). -/
def VALUE_PER_TWO_ITEMS : ℤ := 5

/-- 50 points for a round dollar amount (src/main.go line 21). -/
def ROUND_DOLLAR_AMOUNT_BONUS : ℤ := 50

/-- 25 points for a multiple of 0.25 (src/main.go line 22). -/
def MULTIPLE_OF_0_POINT_25_BONUS : ℤ := 25

/-- 6 points for an odd purchase day (src/main.go line 23). -/
def ODD_DAY_BONUS : ℤ := 6

/-- 10 points for a purchase between 2pm and 4pm (src/main.go line 24). -/
def BETWEEN_2PM_AND_4PM_BONUS : ℤ := 10

/-- Per-item price multiplier, the Go constant `0.2` at its exact decimal
value (src/main.go line 25). -/
def ITEM_PRICE_MULTIPLIER : ℚ := 0.2

/-- Characters kept by the regexp replacement
`[^a-zA-Z0-9]+ -> ""` (src/main.go line 113): ASCII letters and digits
(code points a-z 97-122, A-Z 65-90, 0-9 48-57). -/
def isGoAlnum (c : Char) : Bool :=
  (97 ≤ c.toNat && c.toNat ≤ 122) || (65 ≤ c.toNat && c.toNat ≤ 90) ||
  (48 ≤ c.toNat && c.toNat ≤ 57)

/-- ASCII decimal digit (code points 48-57, i.e. 0-9). -/
def isDigitChar (c : Char) : Bool := 48 ≤ c.toNat && c.toNat ≤ 57

/-- White space per Go's `unicode.IsSpace` restricted to Latin-1
(`\t`, `\n`, `\v`, `\f`, `\r`, space, NEL, NBSP); the further Unicode
space classes are not modelled. -/
def isGoSpace (c : Char) : Bool :=
  c.toNat == 32 || c.toNat == 9 || c.toNat == 10 || c.toNat == 11 ||
  c.toNat == 12 || c.toNat == 13 || c.toNat == 133 || c.toNat == 160

/-- Go's `strings.Split` for a one-character separator: the list of (possibly
empty) segments between occurrences of `sep`.  `strings.Split` never returns
an empty slice; likewise this function never returns `[]`. -/
def splitOnChar (sep : Char) : List Char → List (List Char)
  | [] => [[]]
  | c :: rest =>
    if c == sep then [] :: splitOnChar sep rest
    else
      match splitOnChar sep rest with
      | [] => [[c]]
      | seg :: segs => (c :: seg) :: segs

/-- Go's `strings.TrimSpace`: drop leading and trailing white space. -/
def goTrimSpace (cs : List Char) : List Char :=
  ((cs.dropWhile isGoSpace).reverse.dropWhile isGoSpace).reverse

/-- UTF-8 byte length of a character sequence; `len` of the corresponding Go
string. -/
def utf8Length (cs : List Char) : Nat := (cs.map Char.utf8Size).sum

/-- Numeric value of a digit sequence. -/
def digitsVal (cs : List Char) : Nat :=
  cs.foldl (fun a c => 10 * a + (c.toNat - 48)) 0

/-- Go's `strconv.Atoi`: optional sign, then one or more decimal digits, with
the 64-bit `int` range check (out-of-range input returns an error, which the
caller treats as a failed parse). -/
def goAtoi (cs : List Char) : Option ℤ :=
  let signAndDigits : ℤ × List Char :=
    match cs with
    | c :: rest =>
      if c == '+' then (1, rest) else if c == '-' then (-1, rest) else (1, c :: rest)
    | [] => (1, [])
  let sgn := signAndDigits.1
  let ds := signAndDigits.2
  if ds.isEmpty || !ds.all isDigitChar then none
  else
    let v : ℤ := sgn * (digitsVal ds : ℤ)
    if v < -(2 ^ 63) ∨ 2 ^ 63 - 1 < v then none else some v

/-- Go's `strconv.ParseFloat` on decimal syntax, at exact rational value:
optional sign, integer digits and/or a fraction after `.` (at least one digit
between them), and an optional exponent part `e`/`E` with optional sign and at
least one digit. -/
def goParseFloat (cs : List Char) : Option ℚ :=
  let signAndRest : ℚ × List Char :=
    match cs with
    | c :: rest =>
      if c == '+' then (1, rest) else if c == '-' then (-1, rest) else (1, c :: rest)
    | [] => (1, [])
  let sgn := signAndRest.1
  let cs1 := signAndRest.2
  let ip := cs1.takeWhile isDigitChar
  let cs2 := cs1.dropWhile isDigitChar
  let fracAndRest : List Char × List Char :=
    match cs2 with
    | c :: rest =>
      if c == '.' then (rest.takeWhile isDigitChar, rest.dropWhile isDigitChar)
      else ([], c :: rest)
    | [] => ([], [])
  let fp := fracAndRest.1
  let cs3 := fracAndRest.2
  if ip.isEmpty && fp.isEmpty then none
  else
    let mant : ℚ := sgn * ((digitsVal ip : ℚ) + (digitsVal fp : ℚ) / (10 : ℚ) ^ fp.length)
    match cs3 with
    | [] => some mant
    | e :: rest =>
      if e == 'e' || e == 'E' then
        let esignAndRest : ℤ × List Char :=
          match rest with
          | c :: r =>
            if c == '+' then (1, r) else if c == '-' then (-1, r) else (1, c :: r)
          | [] => (1, [])
        let ed := esignAndRest.2.takeWhile isDigitChar
        if ed.isEmpty || !(esignAndRest.2.dropWhile isDigitChar).isEmpty then none
        else some (mant * (10 : ℚ) ^ (esignAndRest.1 * (digitsVal ed : ℤ)))
      else none

/-- Models `math.Mod(x, m) == 0` for the nonzero constants used in scoring:
`fmod` is exact, so the test holds exactly when `x` is an integer multiple of
`m`, i.e. when `x / m` has denominator 1. -/
def goModZero (x m : ℚ) : Bool := (x / m).den == 1

/-- A specific item purchased (src/main.go lines 43-46). -/
structure Item where
  shortDescription : String
  price : String
deriving DecidableEq

/-- A receipt (src/main.go lines 49-55). -/
structure Receipt where
  retailer : String
  purchaseDate : String
  purchaseTime : String
  total : String
  items : List Item
deriving DecidableEq

/-- Contribution of one item in the value loop (src/main.go lines 142-149):
if the trimmed short description's byte length is divisible by 3 and the price
parses, add `ceil(price * ITEM_PRICE_MULTIPLIER)`; otherwise 0. -/
def itemValue (it : Item) : ℤ :=
  if utf8Length (goTrimSpace it.shortDescription.toList) % 3 == 0 then
    match goParseFloat it.price.toList with
    | some price => ⌈price * ITEM_PRICE_MULTIPLIER⌉
    | none => 0
  else 0

/-- The value loop over all items (src/main.go lines 142-149). -/
def itemsValue (items : List Item) : ℤ := (items.map itemValue).sum

/-- The scoring portion of the `getPoints` handler (src/main.go lines
106-149), transcribed statement by statement.  `none` models the runtime
panic (index out of range) raised at line 130 when
`strings.Split(receipt.PurchaseDate, "-")` has fewer than three segments;
that panic aborts the request before a score is produced. -/
def getPointsScore (r : Receipt) : Option ℤ :=
  let points : ℤ := 0
  let points := points +
    ((r.retailer.toList.filter isGoAlnum).length : ℤ) * VALUE_PER_ALPHANUMERIC_CHAR
  let points := points + ((r.items.length / 2 : ℕ) : ℤ) * VALUE_PER_TWO_ITEMS
  let totalRes := goParseFloat r.total.toList
  let points := points +
    (match totalRes with
     | some total => if goModZero total 1 then ROUND_DOLLAR_AMOUNT_BONUS else 0
     | none => 0)
  let points := points +
    (match totalRes with
     | some total => if goModZero total (1 / 4) then MULTIPLE_OF_0_POINT_25_BONUS else 0
     | none => 0)
  match (splitOnChar '-' r.purchaseDate.toList)[2]? with
  | none => none
  | some dayStr =>
    let points := points +
      (match goAtoi dayStr with
       | some day => if day.tmod 2 = 1 then ODD_DAY_BONUS else 0
       | none => 0)
    let points := points +
      (match goAtoi ((splitOnChar ':' r.purchaseTime.toList).headD []) with
       | some hour => if 14 ≤ hour ∧ hour < 16 then BETWEEN_2PM_AND_4PM_BONUS else 0
       | none => 0)
    some (points + itemsValue r.items)

/-! ## Rule-level view of the score

The six scoring rules of the specification, as separate functions.  The
decomposition theorem `getPointsScore_eq` relates the transcribed handler body
to their sum. -/

/-- Round-dollar rule (src/main.go lines 123-126). -/
def roundDollarPoints (r : Receipt) : ℤ :=
  match goParseFloat r.total.toList with
  | some total => if goModZero total 1 then ROUND_DOLLAR_AMOUNT_BONUS else 0
  | none => 0

/-- Quarter-multiple rule (src/main.go lines 127-129). -/
def quarterMultiplePoints (r : Receipt) : ℤ :=
  match goParseFloat r.total.toList with
  | some total => if goModZero total (1 / 4) then MULTIPLE_OF_0_POINT_25_BONUS else 0
  | none => 0

/-- Afternoon rule (src/main.go lines 134-137): integer-parse the text before
the first `:` (the whole string when there is no `:`). -/
def afternoonPoints (r : Receipt) : ℤ :=
  match goAtoi ((splitOnChar ':' r.purchaseTime.toList).headD []) with
  | some hour => if 14 ≤ hour ∧ hour < 16 then BETWEEN_2PM_AND_4PM_BONUS else 0
  | none => 0

/-! ## HTTP layer -/

/-- JSON values, as bound by gin from a request body. -/
inductive Json where
  | null : Json
  | bool : Bool → Json
  | num : ℚ → Json
  | str : String → Json
  | arr : List Json → Json
  | obj : List (String × Json) → Json

/-- First binding of a key in a JSON object. -/
def jsonField (fields : List (String × Json)) (k : String) : Option Json :=
  fields.lookup k

/-- Modelled from the spec: gin's binding of a `binding:"required"` string
field ("strings where expected", "Both fields required and non-empty when
present") — the field must be present, be a JSON string, and be non-empty
(`required` rejects the zero value `""`). -/
def bindString : Option Json → Option String
  | some (Json.str s) => if s.isEmpty then none else some s
  | _ => none

/-- Modelled from the spec: gin's `ShouldBindJSON` binding of one `Item`
(src/main.go lines 43-46 declares the tags; the binding itself lives in the
gin/validator libraries, §4.3: "array of well-formed Items").  An element
binds only when it is an object with non-empty string fields
`shortDescription` and `price`. -/
def bindItem : Json → Option Item
  | Json.obj fields =>
    match bindString (jsonField fields "shortDescription"),
          bindString (jsonField fields "price") with
    | some d, some p => some ⟨d, p⟩
    | _, _ => none
  | _ => none

/-- Modelled from the spec: the `items` field must be present and be a JSON
array (§3: "items: ordered sequence of Item (length ≥ 0)"; `required`
rejects a nil slice, i.e. a missing or null `items` field). -/
def bindItemsField : Option Json → Option (List Json)
  | some (Json.arr xs) => some xs
  | _ => none

/-- Binding of the `items` array, element by element; one ill-formed element
fails the whole binding. -/
def bindItems : List Json → Option (List Item)
  | [] => some []
  | j :: rest => do
    let it ← bindItem j
    let its ← bindItems rest
    pure (it :: its)

/-- Modelled from the spec: gin's `ShouldBindJSON` for `Receipt`
(src/main.go lines 49-55 declares the tags; §4.3: "validates it deserializes
into a well-formed Receipt with all required fields present and of the
correct shape (strings where expected, array of well-formed Items)"). -/
def bindReceipt : Json → Option Receipt
  | Json.obj fields => do
    let retailer ← bindString (jsonField fields "retailer")
    let purchaseDate ← bindString (jsonField fields "purchaseDate")
    let purchaseTime ← bindString (jsonField fields "purchaseTime")
    let total ← bindString (jsonField fields "total")
    let itemsArr ← bindItemsField (jsonField fields "items")
    let items ← bindItems itemsArr
    pure ⟨retailer, purchaseDate, purchaseTime, total, items⟩
  | _ => none

/-- Body of an HTTP response: one of the three JSON shapes the service emits
(src/main.go lines 28-40). -/
inductive RespBody where
  | idBody : String → RespBody
  | pointsBody : ℤ → RespBody
  | descBody : String → RespBody
deriving DecidableEq

/-- An HTTP response: status code and JSON body. -/
structure HttpResponse where
  status : Nat
  body : RespBody
deriving DecidableEq

/-- The receipts map (src/main.go line 58), modelled as an association list
with the most recent insert first; `List.lookup` returns the most recent
binding of a key, matching Go map assignment semantics per key. -/
abbrev Store := List (String × Receipt)

/-- The `processReceipts` handler (src/main.go lines 72-88).  The xid
generator is external input, so the fresh id is a parameter.  On a binding
failure the handler aborts with 400 `"The receipt is invalid"` and the store
is untouched; on success the receipt is stored under the fresh id and the id
is returned with status 200. -/
def processReceipts (store : Store) (payload : Json) (freshId : String) :
    HttpResponse × Store :=
  match bindReceipt payload with
  | none => (⟨400, RespBody.descBody "The receipt is invalid"⟩, store)
  | some receipt => (⟨200, RespBody.idBody freshId⟩, (freshId, receipt) :: store)

/-- The `getPoints` handler (src/main.go lines 95-153).  An unknown id aborts
with 400 `"No receipt found for that id"`.  A found receipt is scored by
`getPointsScore`; the `none` response models the runtime panic during scoring
(no 200 response is produced; gin's recovery middleware turns the panic into
an HTTP 500).  The handler never writes to the store. -/
def getPoints (store : Store) (id : String) : Option HttpResponse × Store :=
  match store.lookup id with
  | none => (some ⟨400, RespBody.descBody "No receipt found for that id"⟩, store)
  | some receipt =>
    match getPointsScore receipt with
    | none => (none, store)
    | some p => (some ⟨200, RespBody.pointsBody p⟩, store)

/-! ## Helper lemmas -/

/-- Go's `strings.Split` never returns an empty slice. -/
theorem splitOnChar_ne_nil (sep : Char) (cs : List Char) : splitOnChar sep cs ≠ [] := by
  cases cs with
  | nil => simp [splitOnChar]
  | cons c rest =>
    simp only [splitOnChar]
    split
    · simp
    · cases h : splitOnChar sep rest <;> simp

/-- Splitting peels off a leading separator-free segment. -/
theorem splitOnChar_append (sep : Char) (xs ys : List Char) (h : sep ∉ xs) :
    splitOnChar sep (xs ++ sep :: ys) = xs :: splitOnChar sep ys := by
  induction xs with
  | nil => simp [splitOnChar]
  | cons c rest ih =>
    rw [List.mem_cons, not_or] at h
    have hc : (c == sep) = false := beq_eq_false_iff_ne.mpr fun e => h.1 e.symm
    simp only [List.cons_append, splitOnChar, hc, List.append_eq]
    rw [ih h.2]
    simp

/-- An exact multiple of 1 is an exact multiple of 1/4. -/
theorem goModZero_quarter_of_one {q : ℚ} (h : goModZero q 1 = true) :
    goModZero q (1 / 4) = true := by
  unfold goModZero at h ⊢
  have hq : q.den = 1 := by simpa using h
  have hnum : (q.num : ℚ) = q := (Rat.den_eq_one_iff q).mp hq
  have h4 : q / (1 / 4) = ((4 * q.num : ℤ) : ℚ) := by
    push_cast [hnum]
    ring
  rw [h4]
  simp only [Rat.den_intCast, beq_self_eq_true]

theorem isDigitChar_bounds {c : Char} (h : isDigitChar c = true) :
    48 ≤ c.toNat ∧ c.toNat ≤ 57 := by
  simpa [isDigitChar] using h

theorem char_beq_eq_false_of_toNat_ne {c d : Char} (h : c.toNat ≠ d.toNat) :
    (c == d) = false :=
  beq_eq_false_iff_ne.mpr fun e => h (by rw [e])

theorem goAtoi_two_digits (c1 c2 : Char)
    (hd1 : isDigitChar c1 = true) (hd2 : isDigitChar c2 = true) :
    goAtoi [c1, c2] = some ((digitsVal [c1, c2] : ℕ) : ℤ) := by
  obtain ⟨hl1, hu1⟩ := isDigitChar_bounds hd1
  obtain ⟨hl2, hu2⟩ := isDigitChar_bounds hd2
  have e43 : ('+').toNat = 43 := rfl
  have e45 : ('-').toNat = 45 := rfl
  have hp : (c1 == '+') = false := char_beq_eq_false_of_toNat_ne (by omega)
  have hm : (c1 == '-') = false := char_beq_eq_false_of_toNat_ne (by omega)
  have hv : digitsVal [c1, c2] = 10 * (c1.toNat - 48) + (c2.toNat - 48) := by
    simp [digitsVal]
  unfold goAtoi
  simp only [hp, hm, Bool.false_eq_true, if_false, List.isEmpty_cons,
    List.all_cons, List.all_nil, hd1, hd2, Bool.and_true, Bool.and_self,
    Bool.not_true, Bool.or_false, Bool.false_or]
  rw [if_neg]
  · simp
  · rw [hv]
    push_cast
    omega

theorem afternoonPoints_hhmm (r : Receipt) (c1 c2 c3 c4 : Char)
    (ht : r.purchaseTime.toList = [c1, c2, ':', c3, c4])
    (hd1 : isDigitChar c1 = true) (hd2 : isDigitChar c2 = true) :
    afternoonPoints r =
      if 14 ≤ (digitsVal [c1, c2] : ℤ) ∧ (digitsVal [c1, c2] : ℤ) < 16
      then BETWEEN_2PM_AND_4PM_BONUS else 0 := by
  have hno : ':' ∉ [c1, c2] := by
    intro hmem
    have e58 : (':').toNat = 58 := rfl
    obtain ⟨hl1, hu1⟩ := isDigitChar_bounds hd1
    obtain ⟨hl2, hu2⟩ := isDigitChar_bounds hd2
    rcases List.mem_cons.mp hmem with h | h
    · rw [← h] at hu1; omega
    · rcases List.mem_cons.mp h with h' | h'
      · rw [← h'] at hu2; omega
      · simp at h'
  have hsplit : splitOnChar ':' r.purchaseTime.toList
      = [c1, c2] :: splitOnChar ':' [c3, c4] := by
    rw [ht]
    exact splitOnChar_append ':' [c1, c2] [c3, c4] hno
  unfold afternoonPoints
  rw [hsplit]
  simp only [List.headD_cons]
  rw [goAtoi_two_digits c1 c2 hd1 hd2]

theorem bindString_ne_empty {o : Option Json} {s : String}
    (h : bindString o = some s) : s ≠ "" := by
  unfold bindString at h
  cases o with
  | none => simp at h
  | some j =>
    cases j <;> simp at h
    case str s' =>
      rcases h with ⟨hne, rfl⟩
      intro e
      rw [e] at hne
      exact absurd hne (by decide)

theorem bindItem_wf {j : Json} {it : Item} (h : bindItem j = some it) :
    it.shortDescription ≠ "" ∧ it.price ≠ "" := by
  unfold bindItem at h
  cases j <;> simp at h
  case obj fields =>
    cases hd : bindString (jsonField fields "shortDescription") <;> rw [hd] at h
    · simp at h
    · cases hp : bindString (jsonField fields "price") <;> rw [hp] at h
      · simp at h
      · simp at h
        subst h
        exact ⟨bindString_ne_empty hd, bindString_ne_empty hp⟩

theorem bindItems_none_of_mem {xs : List Json} {e : Json}
    (he : e ∈ xs) (hb : bindItem e = none) : bindItems xs = none := by
  induction xs with
  | nil => simp at he
  | cons j rest ih =>
    rcases List.mem_cons.mp he with h | h
    · subst h
      simp [bindItems, hb]
    · unfold bindItems
      cases hj : bindItem j
      · simp
      · simp [ih h]

theorem bindItems_wf {xs : List Json} {items : List Item}
    (h : bindItems xs = some items) :
    ∀ it ∈ items, it.shortDescription ≠ "" ∧ it.price ≠ "" := by
  induction xs generalizing items with
  | nil =>
    unfold bindItems at h
    simp at h
    subst h
    simp
  | cons j rest ih =>
    unfold bindItems at h
    cases hj : bindItem j <;> rw [hj] at h
    · simp at h
    · cases hr : bindItems rest <;> rw [hr] at h
      · simp at h
      · simp at h
        subst h
        intro it hit
        rcases List.mem_cons.mp hit with rfl | hmem
        · exact bindItem_wf hj
        · exact ih hr it hmem

theorem bindReceipt_items_wf {payload : Json} {r : Receipt}
    (h : bindReceipt payload = some r) :
    ∀ it ∈ r.items, it.shortDescription ≠ "" ∧ it.price ≠ "" := by
  unfold bindReceipt at h
  cases payload <;> simp at h
  case obj fields =>
    simp only [Option.bind_eq_bind, Option.bind_eq_some, Option.pure_def,
      Option.some.injEq] at h
    obtain ⟨ret, h1, date, h2, time, h3, tot, h4, arr, h5, items, h6, hr⟩ := h
    subst hr
    simpa using bindItems_wf h6

theorem bindReceipt_none_of_bad_item {fields : List (String × Json)}
    {xs : List Json} {e : Json}
    (hf : jsonField fields "items" = some (Json.arr xs))
    (he : e ∈ xs) (hb : bindItem e = none) :
    bindReceipt (Json.obj fields) = none := by
  have hitems : bindItems xs = none := bindItems_none_of_mem he hb
  simp only [bindReceipt, hf, bindItemsField, hitems]
  cases bindString (jsonField fields "retailer") <;>
    cases bindString (jsonField fields "purchaseDate") <;>
    cases bindString (jsonField fields "purchaseTime") <;>
    cases bindString (jsonField fields "total") <;>
    simp [hitems]

/-! ## Claim theorems -/

/-- The concrete receipt of scenario A (spec §8). -/
def scenarioAReceipt : Receipt :=
  { retailer := "Target"
    purchaseDate := "2022-01-01"
    purchaseTime := "13:01"
    total := "35.35"
    items :=
      [ { shortDescription := "Mountain Dew 12PK", price := "6.49" }
      , { shortDescription := "Emils Cheese Pizza", price := "12.25" }
      , { shortDescription := "Knorr Creamy Chicken", price := "1.26" }
      , { shortDescription := "Doritos Nacho Cheese", price := "3.35" }
      , { shortDescription := "   Klarbrunn 12-PK 12 FL OZ  ", price := "12.00" } ] }

set_option maxRecDepth 10000

/-- C3: Scoring the concrete receipt of scenario A (retailer "Target", total
"35.35", purchaseDate "2022-01-01", purchaseTime "13:01", and the five listed
items) yields exactly 28 points. -/
theorem claim3_scenarioA_points : getPointsScore scenarioAReceipt = some 28 := by
  have h1 : (⌈(49 : ℚ) / 20⌉ : ℤ) = 3 := by norm_num [Int.ceil_eq_iff]
  have h2 : (⌈(12 : ℚ) / 5⌉ : ℤ) = 3 := by norm_num [Int.ceil_eq_iff]
  simp +decide +arith [getPointsScore, scenarioAReceipt, itemsValue, itemValue,
    goParseFloat, goAtoi, goTrimSpace, utf8Length, digitsVal, goModZero,
    splitOnChar, isDigitChar, isGoAlnum, isGoSpace,
    VALUE_PER_ALPHANUMERIC_CHAR, VALUE_PER_TWO_ITEMS, ROUND_DOLLAR_AMOUNT_BONUS,
    MULTIPLE_OF_0_POINT_25_BONUS, ODD_DAY_BONUS, BETWEEN_2PM_AND_4PM_BONUS,
    ITEM_PRICE_MULTIPLIER]
  norm_num [h1, h2, Int.ceil_eq_iff]

/-- C4: For every receipt whose total parses and satisfies the round-dollar
rule (fractional part exactly zero), the quarter-multiple rule is also
satisfied, so the two rules together contribute exactly 75 points. -/
theorem claim4_round_dollar_implies_quarter (r : Receipt) (q : ℚ)
    (hparse : goParseFloat r.total.toList = some q)
    (hround : goModZero q 1 = true) :
    goModZero q (1 / 4) = true ∧
    roundDollarPoints r + quarterMultiplePoints r = 75 := by
  have hq := goModZero_quarter_of_one hround
  refine ⟨hq, ?_⟩
  unfold roundDollarPoints quarterMultiplePoints
  rw [hparse]
  simp only [hround, hq, ite_true]
  norm_num [ROUND_DOLLAR_AMOUNT_BONUS, MULTIPLE_OF_0_POINT_25_BONUS]

/-- Scenario B receipt: total "9.00" (spec §8). -/
def scenarioBReceipt : Receipt :=
  { retailer := "Target", purchaseDate := "2022-01-02", purchaseTime := "13:13"
    total := "9.00", items := [] }

/-- Witness for C4: total "9.00" parses to 9, satisfies the round-dollar test,
and both bonuses apply for a combined 75 points. -/
theorem claim4_witness :
    goParseFloat scenarioBReceipt.total.toList = some 9 ∧
    goModZero 9 1 = true ∧
    (goModZero 9 (1 / 4) = true ∧
      roundDollarPoints scenarioBReceipt + quarterMultiplePoints scenarioBReceipt = 75) := by
  have h1 : goParseFloat scenarioBReceipt.total.toList = some 9 := by
    simp +decide [scenarioBReceipt, goParseFloat, digitsVal]
  have h2 : goModZero 9 1 = true := by simp [goModZero]
  exact ⟨h1, h2, claim4_round_dollar_implies_quarter scenarioBReceipt 9 h1 h2⟩

/-- C7: If a submitted JSON payload fails to bind to a well-formed Receipt,
submit-receipt responds with status 400 and body
`(description: The receipt is invalid)`, and the receipt store is left
unchanged, so no id ever resolves to that payload. -/
theorem claim7_invalid_receipt (store : Store) (payload : Json) (freshId : String)
    (h : bindReceipt payload = none) :
    processReceipts store payload freshId =
      (⟨400, RespBody.descBody "The receipt is invalid"⟩, store) ∧
    ∀ k : String, ((processReceipts store payload freshId).2).lookup k = store.lookup k := by
  unfold processReceipts
  rw [h]
  exact ⟨rfl, fun k => rfl⟩

/-- Witness for C7: the empty JSON object fails to bind and is rejected with
400, leaving the empty store empty. -/
theorem claim7_witness :
    bindReceipt (Json.obj []) = none ∧
    processReceipts [] (Json.obj []) "id0" =
      (⟨400, RespBody.descBody "The receipt is invalid"⟩, ([] : Store)) :=
  ⟨rfl, (claim7_invalid_receipt [] (Json.obj []) "id0" rfl).1⟩

/-- C9: For every id not present in the receipt store, get-points responds
with status 400 and body `(description: No receipt found for that id)`,
produces a response (never crashes), and leaves the store unchanged. -/
theorem claim9_unknown_id (store : Store) (id : String)
    (h : store.lookup id = none) :
    getPoints store id =
      (some ⟨400, RespBody.descBody "No receipt found for that id"⟩, store) := by
  unfold getPoints
  rw [h]

/-- Witness for C9: looking up "abc" in the empty store yields the 400
not-found response. -/
theorem claim9_witness :
    (([] : Store).lookup "abc" = none) ∧
    getPoints ([] : Store) "abc" =
      (some ⟨400, RespBody.descBody "No receipt found for that id"⟩, ([] : Store)) :=
  ⟨rfl, claim9_unknown_id [] "abc" rfl⟩

/-- C10 (amended): if submit-receipt accepts a payload binding to receipt r
and returns an id, a subsequent get-points for that id finds r in the store
(no false not-found); whenever scoring of r completes (its purchaseDate
splits into at least three `-`-separated segments, so the day extraction does
not panic), get-points responds with status 200 and the score of r. -/
theorem claim10_round_trip (store : Store) (payload : Json) (freshId : String)
    (r : Receipt) (h : bindReceipt payload = some r) :
    processReceipts store payload freshId =
      (⟨200, RespBody.idBody freshId⟩, (freshId, r) :: store) ∧
    ((freshId, r) :: store).lookup freshId = some r ∧
    ∀ p : ℤ, getPointsScore r = some p →
      getPoints ((freshId, r) :: store) freshId =
        (some ⟨200, RespBody.pointsBody p⟩, (freshId, r) :: store) := by
  refine ⟨?_, ?_, ?_⟩
  · unfold processReceipts
    rw [h]
  · simp [List.lookup]
  · intro p hp
    unfold getPoints
    simp [List.lookup, hp]

/-- A well-formed payload whose purchaseDate "baddate" has no `-` separator;
it is accepted by submit-receipt, but scoring panics. -/
def cex10Payload : Json :=
  Json.obj [("retailer", Json.str "Target"), ("purchaseDate", Json.str "baddate"),
    ("purchaseTime", Json.str "13:01"), ("total", Json.str "9.00"),
    ("items", Json.arr [])]

/-- Counterexample to C10 as stated: submit-receipt accepts `cex10Payload`
(status 200), yet get-points for the returned id produces no response at all
(the odd-day rule's index-out-of-range panic aborts the request), so no 200
response with a score is ever sent. -/
theorem claim10_counterexample :
    (processReceipts [] cex10Payload "id0").1.status = 200 ∧
    (getPoints (processReceipts [] cex10Payload "id0").2 "id0").1 = none :=
  ⟨rfl, rfl⟩

/-- A receipt used by the C10 witness. -/
def cex10w_receipt : Receipt :=
  { retailer := "Shop", purchaseDate := "2022-01-02", purchaseTime := "10:00"
    total := "1.00", items := [] }

/-- The JSON payload binding to `cex10w_receipt`. -/
def cex10w_payload : Json :=
  Json.obj [("retailer", Json.str "Shop"), ("purchaseDate", Json.str "2022-01-02"),
    ("purchaseTime", Json.str "10:00"), ("total", Json.str "1.00"),
    ("items", Json.arr [])]

/-- Witness for C10: a payload with purchaseDate "2022-01-02" binds, is
stored under the fresh id, and get-points returns its score with 200. -/
theorem claim10_witness :
    bindReceipt cex10w_payload = some cex10w_receipt ∧
    (processReceipts [] cex10w_payload "id1" =
      (⟨200, RespBody.idBody "id1"⟩, [("id1", cex10w_receipt)]) ∧
    ([("id1", cex10w_receipt)] : Store).lookup "id1" = some cex10w_receipt ∧
    ∀ p : ℤ, getPointsScore cex10w_receipt = some p →
      getPoints [("id1", cex10w_receipt)] "id1" =
        (some ⟨200, RespBody.pointsBody p⟩, [("id1", cex10w_receipt)])) :=
  ⟨rfl, claim10_round_trip [] cex10w_payload "id1" cex10w_receipt rfl⟩

/-- C6 (amended): the afternoon rule is governed by integer-parsing the text
before the first `:` of purchaseTime — it adds exactly 10 points when that
parse yields an hour with 14 ≤ hour < 16 and 0 otherwise, and contributes 0
when the parse fails; in particular for a well-formed HH:MM time with digit
characters the bonus applies exactly on the half-open interval [14,16).
(Some malformed times, e.g. "14" with no colon, still parse and receive the
bonus — see `claim6_counterexample`.) -/
theorem claim6_afternoon_rule :
    (∀ (r : Receipt) (hr : ℤ),
      goAtoi ((splitOnChar ':' r.purchaseTime.toList).headD []) = some hr →
      (14 ≤ hr ∧ hr < 16 → afternoonPoints r = BETWEEN_2PM_AND_4PM_BONUS) ∧
      (¬(14 ≤ hr ∧ hr < 16) → afternoonPoints r = 0)) ∧
    (∀ r : Receipt,
      goAtoi ((splitOnChar ':' r.purchaseTime.toList).headD []) = none →
      afternoonPoints r = 0) ∧
    (∀ (r : Receipt) (c1 c2 c3 c4 : Char),
      r.purchaseTime.toList = [c1, c2, ':', c3, c4] →
      isDigitChar c1 = true → isDigitChar c2 = true →
      afternoonPoints r =
        if 14 ≤ (digitsVal [c1, c2] : ℤ) ∧ (digitsVal [c1, c2] : ℤ) < 16
        then BETWEEN_2PM_AND_4PM_BONUS else 0) := by
  refine ⟨?_, ?_, afternoonPoints_hhmm⟩
  · intro r hr h
    constructor <;> intro hcond <;> unfold afternoonPoints <;> rw [h] <;> simp [hcond]
  · intro r h
    unfold afternoonPoints
    rw [h]

/-- A receipt whose purchaseTime "14" is not of HH:MM form. -/
def cex6Receipt : Receipt :=
  { retailer := "!", purchaseDate := "1-1-2", purchaseTime := "14"
    total := "x", items := [] }

/-- Counterexample to C6 as stated: the malformed purchaseTime "14" (no `:`,
not of HH:MM form) contributes 10 points rather than 0, because
`strings.Split` returns the whole string as first segment and it parses to
the in-range hour 14. -/
theorem claim6_counterexample :
    afternoonPoints cex6Receipt = 10 ∧ getPointsScore cex6Receipt = some 10 := by
  constructor
  · simp +decide [afternoonPoints, cex6Receipt, goAtoi, digitsVal, isDigitChar,
      splitOnChar, BETWEEN_2PM_AND_4PM_BONUS]
  · simp +decide +arith [getPointsScore, cex6Receipt, itemsValue, itemValue,
      goParseFloat, goAtoi, goTrimSpace, utf8Length, digitsVal, goModZero,
      splitOnChar, isDigitChar, isGoAlnum, isGoSpace,
      VALUE_PER_ALPHANUMERIC_CHAR, VALUE_PER_TWO_ITEMS, ROUND_DOLLAR_AMOUNT_BONUS,
      MULTIPLE_OF_0_POINT_25_BONUS, ODD_DAY_BONUS, BETWEEN_2PM_AND_4PM_BONUS,
      ITEM_PRICE_MULTIPLIER]

/-- Receipt used by the C6 witness: well-formed time "15:30". -/
def claim6w_receipt : Receipt :=
  { retailer := "x", purchaseDate := "1-1-1", purchaseTime := "15:30"
    total := "x", items := [] }

/-- Witness for C6: instantiates the HH:MM part of the afternoon-rule theorem
at time "15:30", whose hour 15 is in range. -/
theorem claim6_witness :
    (claim6w_receipt.purchaseTime.toList = ['1', '5', ':', '3', '0'] ∧
      isDigitChar '1' = true ∧ isDigitChar '5' = true) ∧
    afternoonPoints claim6w_receipt =
      (if 14 ≤ (digitsVal ['1', '5'] : ℤ) ∧ (digitsVal ['1', '5'] : ℤ) < 16
       then BETWEEN_2PM_AND_4PM_BONUS else 0) :=
  ⟨⟨by decide, by decide, by decide⟩,
    claim6_afternoon_rule.2.2 claim6w_receipt '1' '5' '3' '0'
      (by decide) (by decide) (by decide)⟩

/-- C8: submit-receipt rejects with status 400 any payload whose items array
contains an element that does not bind to a well-formed Item (an element
missing shortDescription or price, or a null element), leaving the store
unchanged; consequently every stored receipt contains only well-formed items
(non-empty shortDescription and price). -/
theorem claim8_items_validation :
    (∀ (store : Store) (freshId : String) (fields : List (String × Json))
        (xs : List Json) (e : Json),
      jsonField fields "items" = some (Json.arr xs) → e ∈ xs →
      bindItem e = none →
      processReceipts store (Json.obj fields) freshId =
        (⟨400, RespBody.descBody "The receipt is invalid"⟩, store)) ∧
    (∀ (payload : Json) (r : Receipt), bindReceipt payload = some r →
      ∀ it ∈ r.items, it.shortDescription ≠ "" ∧ it.price ≠ "") := by
  constructor
  · intro store freshId fields xs e hf he hb
    unfold processReceipts
    rw [bindReceipt_none_of_bad_item hf he hb]
  · intro payload r h
    exact bindReceipt_items_wf h

/-- A receipt used by the C8 witness. -/
def claim8w_receipt : Receipt :=
  { retailer := "Shop", purchaseDate := "2022-01-02", purchaseTime := "10:00"
    total := "1.00", items := [{ shortDescription := "Pepsi", price := "1.00" }] }

/-- A JSON payload binding to `claim8w_receipt`. -/
def claim8w_payload : Json :=
  Json.obj [("retailer", Json.str "Shop"), ("purchaseDate", Json.str "2022-01-02"),
    ("purchaseTime", Json.str "10:00"), ("total", Json.str "1.00"),
    ("items", Json.arr [Json.obj [("shortDescription", Json.str "Pepsi"),
      ("price", Json.str "1.00")]])]

/-- Payload fields whose items array holds one element missing `price`. -/
def cex8Fields : List (String × Json) :=
  [("retailer", Json.str "Shop"), ("purchaseDate", Json.str "2022-01-02"),
   ("purchaseTime", Json.str "10:00"), ("total", Json.str "1.00"),
   ("items", Json.arr [Json.obj [("shortDescription", Json.str "Pepsi")]])]

/-- Witness for C8: a payload whose single item lacks `price` is rejected
with 400 and nothing is stored, while a payload with a well-formed item binds
to a receipt whose items are all well-formed. -/
theorem claim8_witness :
    (jsonField cex8Fields "items" =
        some (Json.arr [Json.obj [("shortDescription", Json.str "Pepsi")]]) ∧
      Json.obj [("shortDescription", Json.str "Pepsi")] ∈
        [Json.obj [("shortDescription", Json.str "Pepsi")]] ∧
      bindItem (Json.obj [("shortDescription", Json.str "Pepsi")]) = none) ∧
    processReceipts [] (Json.obj cex8Fields) "id2" =
      (⟨400, RespBody.descBody "The receipt is invalid"⟩, ([] : Store)) ∧
    (bindReceipt claim8w_payload = some claim8w_receipt ∧
      ∀ it ∈ claim8w_receipt.items, it.shortDescription ≠ "" ∧ it.price ≠ "") :=
  ⟨⟨rfl, List.mem_singleton.mpr rfl, rfl⟩,
    claim8_items_validation.1 [] "id2" cex8Fields _ _ rfl
      (List.mem_singleton.mpr rfl) rfl,
    rfl, claim8_items_validation.2 claim8w_payload claim8w_receipt rfl⟩

end ReceiptProcessor
